import Mathlib

/-!
Shallow embedding of `src/yiffer/yiffer.py` from the YifferComicsBot
repository.

The sqlite database is modelled as in-memory lists of rows kept in
insertion (rowid) order.  Python exceptions raised while the translated
code runs (sqlite `IntegrityError`, `TypeError` from subscripting `None`,
`AttributeError` from reading attributes of `None`) are modelled with
`Except PyError`.  Timestamps travel through the code as opaque JSON
strings, so they are modelled as `String`; the nullable `userRating`
float is modelled as `Option Rat`.
-/

/-- Decidable equality for `Except` results, so that runs of the
translated code can be compared by evaluation. -/
instance {ε α : Type} [DecidableEq ε] [DecidableEq α] : DecidableEq (Except ε α) := fun x y =>
  match x, y with
  | .ok a, .ok b => if h : a = b then .isTrue (by rw [h]) else .isFalse (by simp [h])
  | .error a, .error b => if h : a = b then .isTrue (by rw [h]) else .isFalse (by simp [h])
  | .ok _, .error _ => .isFalse (fun h => Except.noConfusion h)
  | .error _, .ok _ => .isFalse (fun h => Except.noConfusion h)

/-- Python exception kinds that the translated code can raise. -/
inductive PyError where
  | integrityError
  | typeError
  | attributeError
  deriving DecidableEq

/-- A value bound into an sqlite query parameter.  The Python code passes
either a string (a comic name) or an integer (a comic id) into the same
parameter slot of `load_from_db`. -/
inductive SqlValue where
  | int (i : Int)
  | text (s : String)
  deriving DecidableEq

/-- Comparison of a bound parameter against a TEXT column value.  The
columns compared against carry TEXT affinity, so sqlite converts a bound
integer to its decimal text before comparing: binding 2 matches the
stored name "2" (and only that canonical spelling — "02" stays
unequal). -/
def SqlValue.eqText : SqlValue → String → Bool
  | .text t, s => t == s
  | .int i, s => toString i == s

/-- Row of the `comics` table (column order as in `create_database`). -/
structure ComicRow where
  id : Int
  name : String
  thumbnail : String
  category : String
  tag : String
  artist : String
  state : String
  created : String
  updated : String
  userRating : Option Rat
  deriving DecidableEq

/-- Row of the `pages` table. -/
structure PageRow where
  comic_name : String
  page_number : Nat
  page_url : String
  deriving DecidableEq

/-- Row of the `keywords` table. -/
structure KeywordRow where
  comic_id : Int
  keyword : String
  deriving DecidableEq

/-- The sqlite database: the three tables created by `create_database`,
each kept in rowid (insertion) order. -/
structure DB where
  comics : List ComicRow
  pages : List PageRow
  keywords : List KeywordRow
  deriving DecidableEq

/-- The freshly created, empty database of `create_database`. -/
def create_database : DB := { comics := [], pages := [], keywords := [] }

/-- Record shape returned from the `api/all-comics` listing. -/
structure BasicComicData where
  id : Int
  name : String
  category : String
  tag : String
  artist : String
  updated : String
  state : String
  created : String
  numberOfPages : Nat
  deriving DecidableEq

/-- Record shape returned from the per-name `api/comics/:name` endpoint. -/
structure DetailedComicData where
  name : String
  numberOfPages : Nat
  artist : String
  id : Int
  category : String
  tag : String
  created : String
  updated : String
  rating : Option Rat
  keywords : List String
  deriving DecidableEq

/-- Combination of `BasicComicData` and `DetailedComicData`, plus the
derived thumbnail and page URL list. -/
structure ComicData where
  id : Int
  name : String
  thumbnail : String
  numberOfPages : Nat
  artist : String
  category : String
  tag : String
  created : String
  updated : String
  state : String
  userRating : Option Rat
  keywords : List String
  pages : List String
  deriving DecidableEq

/-- Python `'{:03d}'.format` of a (non-negative) page number: zero-pad to
width 3. -/
def zeroPad3 (n : Nat) : String :=
  if n < 10 then "00" ++ toString n
  else if n < 100 then "0" ++ toString n
  else toString n

/-- Python `name.replace(' ', '%20')`: every space character becomes the
three characters `%20` (character-by-character, which for a one-character
pattern is exactly what `str.replace` does). -/
def urlEscapeSpaces (name : String) : String :=
  ⟨name.data.foldr (fun c acc => if c = ' ' then '%' :: '2' :: '0' :: acc else c :: acc) []⟩

/-- Translation of `get_comic_thumbnail_by_name`: the THUMBNAIL_URL
template with spaces in the name escaped. -/
def get_comic_thumbnail_by_name (name : String) : String :=
  "https://static.yiffer.xyz/comics/" ++ urlEscapeSpaces name ++ "/thumbnail.webp"

/-- Translation of `get_comic_page_by_name_and_page`: the COMICS_URL
template with spaces escaped and the page number zero-padded to 3. -/
def get_comic_page_by_name_and_page (name : String) (page : Nat) : String :=
  "https://static.yiffer.xyz/comics/" ++ urlEscapeSpaces name ++ "/" ++ zeroPad3 page ++ ".jpg"

/-- Translation of `get_comic_pages_by_name_and_pages`: URLs for pages
1 .. pages. -/
def get_comic_pages_by_name_and_pages (name : String) (pages : Nat) : List String :=
  (List.range' 1 pages).map (get_comic_page_by_name_and_page name)

/-- Translation of `ComicData.save_to_db`.  The comics table was created
with `id INTEGER UNIQUE PRIMARY KEY`, and the method performs a plain
INSERT, so inserting an id that is already present raises
`sqlite3.IntegrityError` (and, the failing statement being the first one
executed on a fresh connection that is never committed, leaves the
database unchanged).  Page rows are numbered from 1 by `enumerate` and
appended; keyword rows are appended. -/
def ComicData.save_to_db (self : ComicData) (db : DB) : Except PyError DB :=
  if db.comics.any (fun row => row.id == self.id) then
    .error .integrityError
  else
    .ok
      { comics := db.comics ++
          [{ id := self.id, name := self.name, thumbnail := self.thumbnail,
             category := self.category, tag := self.tag, artist := self.artist,
             state := self.state, created := self.created, updated := self.updated,
             userRating := self.userRating }],
        pages := db.pages ++
          self.pages.enum.map
            (fun p => { comic_name := self.name, page_number := p.1 + 1, page_url := p.2 }),
        keywords := db.keywords ++
          self.keywords.map (fun k => { comic_id := self.id, keyword := k }) }

/-- Translation of `ComicData.from_basic_and_detailed`.  Reading
`detailed.rating` when the detail fetch returned `None` raises
`AttributeError`; that case is handled at the call site in `update_db`. -/
def ComicData.from_basic_and_detailed (basic : BasicComicData) (detailed : DetailedComicData) :
    ComicData :=
  { id := basic.id, name := basic.name,
    thumbnail := get_comic_thumbnail_by_name basic.name,
    numberOfPages := basic.numberOfPages,
    artist := basic.artist, category := basic.category, tag := basic.tag,
    created := basic.created, updated := basic.updated, state := basic.state,
    userRating := detailed.rating, keywords := detailed.keywords,
    pages := get_comic_pages_by_name_and_pages basic.name basic.numberOfPages }

/-- Translation of `ComicData.load_from_db`.  The `SELECT * FROM comics
WHERE name=?` fetchone returns the first row whose name equals the bound
key; when no row matches, the subsequent `comic_data[0]` subscripts
`None` and raises `TypeError`.  Pages are those with `comic_name` equal
to the key, ordered by `page_number`; keywords are those with `comic_id`
equal to the found row's id.  The returned record derives
`numberOfPages` from the page count. -/
def ComicData.load_from_db (db : DB) (comic_name : SqlValue) : Except PyError ComicData :=
  let comic_data := db.comics.find? (fun row => comic_name.eqText row.name)
  let pages :=
    ((db.pages.filter (fun p => comic_name.eqText p.comic_name)).mergeSort
        (fun p q => p.page_number ≤ q.page_number)).map (fun p => p.page_url)
  match comic_data with
  | none => .error .typeError
  | some row =>
    .ok
      { id := row.id, name := row.name, thumbnail := row.thumbnail,
        category := row.category, numberOfPages := pages.length,
        tag := row.tag, artist := row.artist, state := row.state,
        created := row.created, updated := row.updated,
        userRating := row.userRating,
        keywords := (db.keywords.filter (fun k => k.comic_id == row.id)).map
          (fun k => k.keyword),
        pages := pages }

/-- First-occurrence deduplication of a list (the order in which sqlite's
DISTINCT and the `avail` dictionary of `difflib.quick_ratio` see values). -/
def dedupFirst {α : Type} [DecidableEq α] : List α → List α
  | [] => []
  | x :: xs => x :: dedupFirst (xs.filter (fun y => y ≠ x))
termination_by l => l.length
decreasing_by
  exact Nat.lt_succ_of_le (List.length_filter_le _ _)

namespace Difflib

/-- CPython difflib `SequenceMatcher.__chain_b`: for each element of `b`,
the ascending list of its indices in `b`.  With the default `autojunk`,
elements of a `b` of length at least 200 that account for more than 1% of
it ("popular" elements) are dropped from the index.  `get_close_matches`
never supplies a junk predicate, so the junk set proper is empty. -/
def b2j (b : List Char) (c : Char) : List Nat :=
  let idxs := (List.range b.length).filter (fun j => b.getD j ' ' == c)
  if 200 ≤ b.length ∧ b.length / 100 + 1 < idxs.length then [] else idxs

/-- One inner iteration of the `find_longest_match` dynamic-programming
loop: candidate index `j` of `b` matching `a[i]`.  The state is the best
block found so far together with the `newj2len` dictionary being built
for this row; `j2lenOld` is the dictionary of the previous row. -/
def flmStep (j2lenOld : Int → Nat) (i : Nat) (st : (Nat × Nat × Nat) × (Int → Nat)) (j : Nat) :
    (Nat × Nat × Nat) × (Int → Nat) :=
  let k := j2lenOld ((j : Int) - 1) + 1
  let newj2len : Int → Nat := fun x => if x = (j : Int) then k else st.2 x
  if st.1.2.2 < k then ((i + 1 - k, j + 1 - k, k), newj2len) else (st.1, newj2len)

/-- One row (`for i in range(alo, ahi)`) of the dynamic-programming loop.
The source skips `j < blo` with `continue` and leaves the (ascending)
index list at the first `j >= bhi` with `break`; as `blo ≤ bhi` in every
call, that is the same as taking while `j < bhi` and filtering. -/
def flmRow (a b : List Char) (blo bhi : Nat) (st : (Nat × Nat × Nat) × (Int → Nat)) (i : Nat) :
    (Nat × Nat × Nat) × (Int → Nat) :=
  let js := ((b2j b (a.getD i ' ')).takeWhile (fun j => j < bhi)).filter (fun j => blo ≤ j)
  js.foldl (flmStep st.2 i) (st.1, fun _ => 0)

/-- Extension of the best block to the left (`while besti > alo and bestj
> blo and a[besti-1] == b[bestj-1]`).  The junk set is empty here (see
`b2j`), so the junk-skipping twins of the two extension loops in the
CPython source never move and are omitted. -/
def extendLeft (a b : List Char) (alo blo besti bestj bestsize : Nat) : Nat × Nat × Nat :=
  if h : alo < besti ∧ blo < bestj ∧ a.getD (besti - 1) ' ' = b.getD (bestj - 1) ' ' then
    extendLeft a b alo blo (besti - 1) (bestj - 1) (bestsize + 1)
  else
    (besti, bestj, bestsize)
termination_by besti
decreasing_by
  exact Nat.sub_lt (Nat.lt_of_le_of_lt (Nat.zero_le _) h.1) Nat.one_pos

/-- Extension of the best block to the right (`while besti+bestsize < ahi
and bestj+bestsize < bhi and a[besti+bestsize] == b[bestj+bestsize]`). -/
def extendRight (a b : List Char) (ahi bhi besti bestj bestsize : Nat) : Nat :=
  if h : besti + bestsize < ahi ∧ bestj + bestsize < bhi ∧
      a.getD (besti + bestsize) ' ' = b.getD (bestj + bestsize) ' ' then
    extendRight a b ahi bhi besti bestj (bestsize + 1)
  else bestsize
termination_by ahi - (besti + bestsize)
decreasing_by
  omega

/-- Translation of `SequenceMatcher.find_longest_match` on the window
`[alo, ahi) x [blo, bhi)` with an empty junk set. -/
def find_longest_match (a b : List Char) (alo ahi blo bhi : Nat) : Nat × Nat × Nat :=
  let dp := ((List.range' alo (ahi - alo)).foldl (flmRow a b blo bhi)
      ((alo, blo, 0), fun _ => 0)).1
  let left := extendLeft a b alo blo dp.1 dp.2.1 dp.2.2
  (left.1, left.2.1, extendRight a b ahi bhi left.1 left.2.1 left.2.2)

/-- Total size of the matching blocks of
`SequenceMatcher.get_matching_blocks` on a window: the Ratcliff-Obershelp
recursion around each longest match.  The CPython source drives the same
recursion with an explicit queue; only the sum of the block sizes feeds
the similarity value, and the final merging of adjacent blocks does not
change that sum.  The bounds test restates an invariant of
`find_longest_match` and serves only termination. -/
def matchTotal (a b : List Char) (alo ahi blo bhi : Nat) : Nat :=
  match find_longest_match a b alo ahi blo bhi with
  | (i, j, k) =>
    if _hk : k = 0 then 0
    else if _hb : alo ≤ i ∧ i + k ≤ ahi then
      matchTotal a b alo i blo j + k + matchTotal a b (i + k) ahi (j + k) bhi
    else k
termination_by ahi - alo
decreasing_by
  · omega
  · omega

/-- CPython `difflib._calculate_ratio`: 2M/T, and 1 when both sequences
are empty.  CPython computes this in double-precision floats; the model
uses exact rationals, which agrees with the float computation for the
string lengths at hand: with T at most a few hundred, distinct values of
2M/T differ by far more than one unit in the last place of a double, so
no cutoff comparison or ordering of distinct ratios can flip. -/
def calculate_similarity (m len : Nat) : Rat :=
  if len ≠ 0 then (2 * m : Rat) / (len : Rat) else 1

/-- CPython `SequenceMatcher.ratio` (named `similarity` here): twice the
number of matched elements over the total length. -/
def similarity (a b : List Char) : Rat :=
  calculate_similarity (matchTotal a b 0 a.length 0 b.length) (a.length + b.length)

/-- Number of occurrences of a character in a list. -/
def countElem (l : List Char) (c : Char) : Nat := (l.filter (fun x => x == c)).length

/-- CPython `SequenceMatcher.quick_ratio`: each element of `a` counts as
a match while unconsumed occurrences of it remain in `b`, i.e. the sum
over distinct elements of the smaller occurrence count. -/
def quick_similarity (a b : List Char) : Rat :=
  calculate_similarity
    ((dedupFirst a).foldl (fun acc c => acc + min (countElem a c) (countElem b c)) 0)
    (a.length + b.length)

/-- CPython `SequenceMatcher.real_quick_ratio`. -/
def real_quick_similarity (a b : List Char) : Rat :=
  calculate_similarity (min a.length b.length) (a.length + b.length)

/-- Ordering used by `heapq.nlargest` on `(similarity, name)` pairs:
Python tuple comparison, descending.  `pairDescLE p q` holds when `p`
may come no later than `q` in the output. -/
def pairDescLE (p q : Rat × String) : Bool :=
  if p.1 = q.1 then !decide (p.2.data < q.2.data) else decide (q.1 < p.1)

/-- Translation of `difflib.get_close_matches(word, possibilities, n,
cutoff)`: keep the possibilities whose similarity to `word` passes the
cutoff (the two quick upper bounds are tested first, exactly as in the
source), then return the `n` largest `(similarity, possibility)` pairs
in descending Python tuple order (`heapq.nlargest` is documented as
`sorted(iterable, reverse=True)[:n]`). -/
def get_close_matches (word : String) (possibilities : List String) (n : Nat) (cutoff : Rat) :
    List String :=
  let result := (possibilities.filter (fun x =>
      cutoff ≤ real_quick_similarity x.data word.data ∧
      cutoff ≤ quick_similarity x.data word.data ∧
      cutoff ≤ similarity x.data word.data)).map
    (fun x => (similarity x.data word.data, x))
  ((result.mergeSort pairDescLE).take n).map (fun p => p.2)

end Difflib

/-- Python `str.title()` on the character classes this repository feeds
it: an alphabetic character is uppercased when it follows a non-cased
character and lowercased otherwise. -/
def pyTitleGo : Bool → List Char → List Char
  | _, [] => []
  | prevCased, c :: cs =>
    if c.isAlpha then
      (if prevCased then c.toLower else c.toUpper) :: pyTitleGo true cs
    else
      c :: pyTitleGo false cs

/-- Python `str.title()`. -/
def pyTitle (s : String) : String := ⟨pyTitleGo false s.data⟩

/-- Translation of `ComicData.search_by_keywords`: sqlite's `SELECT
DISTINCT comic_id FROM keywords WHERE keyword IN (...)` scans the table
in rowid order and keeps one representative per comic id; the first
`limit` ids are then resolved with `load_from_db`, the id being bound
where a comic name is expected.  (For an empty keyword list the source
builds the malformed query `IN ()`, which sqlite rejects; the claims only
exercise non-empty keyword lists.) -/
def ComicData.search_by_keywords (db : DB) (keywords : List String) (limit : Nat) :
    Except PyError (List ComicData) :=
  let matching_comic_ids :=
    (dedupFirst ((db.keywords.filter (fun k => keywords.contains k.keyword)).map
      (fun k => k.comic_id))).take limit
  matching_comic_ids.mapM (fun comic_id => ComicData.load_from_db db (.int comic_id))

/-- Translation of `ComicData.search_comics_by_name`: title-case the
query, take the closest stored names at cutoff 0.3, and load each by
name. -/
def ComicData.search_comics_by_name (db : DB) (query : String) (limit : Nat) :
    Except PyError (List ComicData) :=
  let all_comics := db.comics.map (fun row => row.name)
  let closest_matches := Difflib.get_close_matches (pyTitle query) all_comics limit (3 / 10)
  if closest_matches.isEmpty then .ok []
  else closest_matches.mapM (fun comic_name => ComicData.load_from_db db (.text comic_name))

/-- Loop body shared by the artist/category/tag searches: resolve each
matched field value to the id of the first comics row carrying it
(`next(... , None)`), keep it only when truthy (`if comic_id:` drops both
`None` and id 0), and load it — the id again being bound where a name is
expected. -/
def resolveAndLoad (db : DB) (all_comics : List (Int × String)) (acc : List ComicData)
    (value : String) : Except PyError (List ComicData) :=
  match (all_comics.find? (fun comic => comic.2 == value)).map (fun comic => comic.1) with
  | none => .ok acc
  | some comic_id =>
    if comic_id = 0 then .ok acc
    else do
      let c ← ComicData.load_from_db db (.int comic_id)
      pure (acc ++ [c])

/-- Translation of `ComicData.search_comics_by_artist` (default difflib
cutoff 0.6). -/
def ComicData.search_comics_by_artist (db : DB) (query : String) (limit : Nat) :
    Except PyError (List ComicData) :=
  let all_comics := db.comics.map (fun row => (row.id, row.artist))
  let closest_matches :=
    Difflib.get_close_matches query (all_comics.map (fun comic => comic.2)) limit (6 / 10)
  closest_matches.foldlM (resolveAndLoad db all_comics) []

/-- Translation of `ComicData.search_comics_by_category`. -/
def ComicData.search_comics_by_category (db : DB) (query : String) (limit : Nat) :
    Except PyError (List ComicData) :=
  let all_comics := db.comics.map (fun row => (row.id, row.category))
  let closest_matches :=
    Difflib.get_close_matches query (all_comics.map (fun comic => comic.2)) limit (6 / 10)
  closest_matches.foldlM (resolveAndLoad db all_comics) []

/-- Translation of `ComicData.search_comics_by_tag`. -/
def ComicData.search_comics_by_tag (db : DB) (query : String) (limit : Nat) :
    Except PyError (List ComicData) :=
  let all_comics := db.comics.map (fun row => (row.id, row.tag))
  let closest_matches :=
    Difflib.get_close_matches query (all_comics.map (fun comic => comic.2)) limit (6 / 10)
  closest_matches.foldlM (resolveAndLoad db all_comics) []

/-- The `ORDER BY userRating DESC` comparison on the nullable rating
column: higher ratings first, SQL NULL ratings last (sqlite orders NULL
below every numeric value, so DESC places NULLs at the end).
`optRatingDescLE x y` holds when a row rated `x` may come no later than
a row rated `y`. -/
def optRatingDescLE : Option Rat → Option Rat → Bool
  | none, none => true
  | none, some _ => false
  | some _, none => true
  | some x, some y => decide (y ≤ x)

/-- The `ORDER BY userRating DESC` comparison on comics rows. -/
def ratingDescLE (p q : ComicRow) : Bool :=
  optRatingDescLE p.userRating q.userRating

/-- The comics table ordered by `ORDER BY userRating DESC`.  Sqlite fixes
no order among equal ratings; the model uses the stable order, ties kept
in rowid order. -/
def sorted_by_rating (db : DB) : List ComicRow := db.comics.mergeSort ratingDescLE

/-- Translation of `ComicData.search_comics_by_page`: names of the rows
at `LIMIT limit OFFSET (page-1)*limit` of the rating-ordered table, each
loaded back by name.  (For page 0 the Python offset is -10, which sqlite
treats as 0; truncated `Nat` subtraction models that.) -/
def ComicData.search_comics_by_page (db : DB) (page : Nat) (limit : Nat) :
    Except PyError (List ComicData) :=
  let offset := (page - 1) * limit
  let comic_names := (((sorted_by_rating db).drop offset).take limit).map (fun row => row.name)
  comic_names.mapM (fun name => ComicData.load_from_db db (.text name))

/-- Python `round(a / 10)` for an integer `a`: floats represent the
halfway cases `a ≡ 5 (mod 10)` exactly (they are dyadic), so Python
rounds them half-to-even; every other case rounds to the nearest
integer. -/
def pyRoundDiv10 (a : Int) : Int :=
  let q := a.fdiv 10
  let r := a.fmod 10
  if r < 5 then q
  else if 5 < r then q + 1
  else if q % 2 = 0 then q else q + 1

/-- Translation of `ComicData.get_max_page_number`:
`round((number_of_comics - 1) / 10)`. -/
def ComicData.get_max_page_number (db : DB) : Int :=
  pyRoundDiv10 ((db.comics.length : Int) - 1)

/-- Page rows of one comic name (`SELECT * FROM pages WHERE
comic_name=?` with a string key). -/
def pagesFor (db : DB) (name : String) : List PageRow :=
  db.pages.filter (fun p => p.comic_name == name)

/-- Loop body of `update_db` for one listing record: if the stored page
rows for the comic's name number fewer than the listing's
`numberOfPages`, fetch the detail record and save the merged comic.  A
failed detail fetch hands `None` to `from_basic_and_detailed`, whose
`detailed.rating` access raises `AttributeError`; a failed save raises
out of `save_to_db`.  Either exception aborts the whole cycle, and the
per-comic commits make the database state at that point the one that
persists — the error therefore carries the state reached so far. -/
def update_step (detail : String → Option DetailedComicData) (db : DB)
    (basic : BasicComicData) : Except (PyError × DB) DB :=
  if (pagesFor db basic.name).length < basic.numberOfPages then
    match detail basic.name with
    | none => .error (.attributeError, db)
    | some d =>
      match (ComicData.from_basic_and_detailed basic d).save_to_db db with
      | .error e => .error (e, db)
      | .ok db2 => .ok db2
  else .ok db

/-- Translation of `update_db`, run against a successfully fetched
listing `comics` and a detail endpoint `detail` (`None` models a
non-200 response for that name). -/
def update_db (comics : List BasicComicData) (detail : String → Option DetailedComicData)
    (db : DB) : Except (PyError × DB) DB :=
  comics.foldlM (update_step detail) db

/-- Database states reachable from `create_database` by synchronization
cycles against arbitrary remote listings and detail endpoints.  A cycle
that aborts with an exception still leaves behind the state committed up
to the failing comic. -/
inductive Reachable : DB → Prop where
  | init : Reachable create_database
  | cycle_ok {db l detail db2} : Reachable db → update_db l detail db = .ok db2 →
      Reachable db2
  | cycle_err {db l detail e db2} : Reachable db →
      update_db l detail db = .error (e, db2) → Reachable db2

/-- A listing is consistent with the name-to-id assignment `assign` when
every record pairs its name with the id `assign` gives it. -/
def ConsistentListing (assign : String → Int) (comics : List BasicComicData) : Prop :=
  ∀ b ∈ comics, b.id = assign b.name

/-- Database states reachable when every synchronization cycle uses a
listing consistent with one fixed name-to-id assignment. -/
inductive ReachableC (assign : String → Int) : DB → Prop where
  | init : ReachableC assign create_database
  | cycle_ok {db l detail db2} : ReachableC assign db → ConsistentListing assign l →
      update_db l detail db = .ok db2 → ReachableC assign db2
  | cycle_err {db l detail e db2} : ReachableC assign db → ConsistentListing assign l →
      update_db l detail db = .error (e, db2) → ReachableC assign db2

/-- The page-numbering invariant of the claims: for every comic name the
page numbers attached to it are exactly the contiguous sequence
1 .. (number of page rows), in order. -/
def PagesContiguous (db : DB) : Prop :=
  ∀ name, (pagesFor db name).map (fun p => p.page_number) =
    List.range' 1 (pagesFor db name).length

/-- Strengthened induction invariant for the page-numbering claim: pages
are contiguously numbered, and every comic name that owns page rows also
owns a comics row whose id is the one `assign` fixes for that name. -/
def InvC (assign : String → Int) (db : DB) : Prop :=
  PagesContiguous db ∧
    ∀ name, pagesFor db name ≠ [] →
      ∃ row ∈ db.comics, row.name = name ∧ row.id = assign name

/-!  Concrete fixtures used by the claim theorems, witnesses and
counterexamples. -/

/-- A listing record with given id, name and page count; the metadata
fields are fixed harmless strings. -/
def mkBasic (i : Int) (nm : String) (n : Nat) : BasicComicData :=
  { id := i, name := nm, category := "c", tag := "t", artist := "a",
    updated := "u", state := "wip", created := "cr", numberOfPages := n }

/-- A detail record with given id, name and page count, rating 5 and the
single keyword "feral". -/
def mkDetail (i : Int) (nm : String) (n : Nat) : DetailedComicData :=
  { name := nm, numberOfPages := n, artist := "a", id := i, category := "c",
    tag := "t", created := "cr", updated := "u", rating := some 5,
    keywords := ["feral"] }

/-- Detail endpoint that knows comic "A" with id 1 and 2 pages. -/
def detailA : String → Option DetailedComicData :=
  fun nm => if nm = "A" then some (mkDetail 1 "A" 2) else none

/-- Store state after one successful cycle over the one-comic listing
`[mkBasic 1 "A" 2]` from the fresh database. -/
def db1 : DB :=
  match update_db [mkBasic 1 "A" 2] detailA create_database with
  | .ok d => d
  | .error _ => create_database

/-- Detail endpoint that reports comic "A" under the NEW id 2 with 3
pages (the remote re-created the comic). -/
def detailA2 : String → Option DetailedComicData :=
  fun nm => if nm = "A" then some (mkDetail 2 "A" 3) else none

/-- Store state after a second cycle in which the name "A" reappears in
the listing under a fresh id 2 with 3 pages. -/
def db2bad : DB :=
  match update_db [mkBasic 2 "A" 3] detailA2 db1 with
  | .ok d => d
  | .error _ => create_database

/-- The name-to-id assignment of the consistent history that produces
`db1`. -/
def assignW : String → Int := fun nm => if nm = "A" then 1 else 0

/-- Comics-table row `Ci` with id `i` and rating `i`. -/
def mkRow (i : Nat) : ComicRow :=
  { id := (i : Int), name := "C" ++ toString i, thumbnail := "th",
    category := "c", tag := "t", artist := "a", state := "wip",
    created := "cr", updated := "u", userRating := some (i : Rat) }

/-- Store with comics rows `C1 .. Cn`, rated 1 .. n. -/
def dbN (n : Nat) : DB :=
  { comics := (List.range' 1 n).map mkRow, pages := [], keywords := [] }

/-- The comics returned for page 3 at limit 10 on the 25-comic store. -/
def res25p3 : List ComicData :=
  match ComicData.search_comics_by_page (dbN 25) 3 10 with
  | .ok l => l
  | .error _ => []

/-- Comics-table row with a given id and artist. -/
def rowArt (i : Int) (art : String) : ComicRow :=
  { id := i, name := "N" ++ toString i, thumbnail := "th", category := "c",
    tag := "t", artist := art, state := "wip", created := "cr",
    updated := "u", userRating := none }

/-- Two comics rows (ids 1 and 2) sharing the artist value "X". -/
def dbArt2 : DB := { comics := [rowArt 1 "X", rowArt 2 "X"], pages := [], keywords := [] }

/-- Two comics rows sharing artist "X", the first with id 0. -/
def dbArt0 : DB := { comics := [rowArt 0 "X", rowArt 7 "X"], pages := [], keywords := [] }

/-- Comics-table row with a given name. -/
def rowNm (nm : String) : ComicRow :=
  { id := 1, name := nm, thumbnail := "th", category := "c", tag := "t",
    artist := "a", state := "wip", created := "cr", updated := "u",
    userRating := none }

/-- Store containing the single comic "Fox Tales". -/
def dbFox : DB := { comics := [rowNm "Fox Tales"], pages := [], keywords := [] }

/-- Store containing a single comic whose 17-character name shares
exactly its first three characters with the title-cased query "Abc",
giving similarity exactly 2*3/(3+17) = 3/10. -/
def dbAbc : DB := { comics := [rowNm "Abcxxxxxxxxxxxxxx"], pages := [], keywords := [] }

/-- The comics returned by the name search for "abc" on `dbAbc`. -/
def resAbc : List ComicData :=
  match ComicData.search_comics_by_name dbAbc "abc" 10 with
  | .ok l => l
  | .error _ => []

unseal Rat.mul Rat.inv Rat.add Rat.sub Nat.gcd Difflib.matchTotal Difflib.extendLeft Difflib.extendRight dedupFirst List.mergeSort List.merge

/-- The comics-table row that `save_to_db` writes for a comic record. -/
def comicRowOf (c : ComicData) : ComicRow :=
  { id := c.id, name := c.name, thumbnail := c.thumbnail, category := c.category,
    tag := c.tag, artist := c.artist, state := c.state, created := c.created,
    updated := c.updated, userRating := c.userRating }

/-- The pages-table rows that `save_to_db` writes for a comic record. -/
def pageRowsOf (c : ComicData) : List PageRow :=
  c.pages.enum.map (fun p => { comic_name := c.name, page_number := p.1 + 1, page_url := p.2 })

/-- Detail endpoint that knows only comic "B" (id 2, 2 pages). -/
def detailBonly : String → Option DetailedComicData :=
  fun nm => if nm = "B" then some (mkDetail 2 "B" 2) else none

/-- Comics-table row with a given id, name and artist. -/
def rowNmArt (i : Int) (nm art : String) : ComicRow :=
  { id := i, name := nm, thumbnail := "th", category := "c", tag := "t",
    artist := art, state := "wip", created := "cr", updated := "u",
    userRating := none }

/-- Store where the matched artist "X" belongs to the comic with id 5
named "B", while a DIFFERENT comic happens to be named "5": the decimal
text sqlite makes of the bound id 5. -/
def dbNum : DB :=
  { comics := [rowNmArt 5 "B" "X", rowNmArt 7 "5" "Y"], pages := [], keywords := [] }

/-- When no comics row is named the decimal text of `i`, binding the
integer `i` where `load_from_db` expects a comic name matches nothing
and the lookup raises.  (It is not unconditional: with TEXT affinity the
lookup succeeds on the first comics row named exactly `toString i`.) -/
theorem load_from_db_int_of_no_numeral (db : DB) (i : Int)
    (h : ∀ row ∈ db.comics, row.name ≠ toString i) :
    ComicData.load_from_db db (.int i) = .error .typeError := by
  have hf : db.comics.find? (fun row => (SqlValue.int i).eqText row.name) = none := by
    apply List.find?_eq_none.mpr
    intro a ha
    simp [SqlValue.eqText]
    exact fun hEq => h a ha hEq.symm
  simp [ComicData.load_from_db, hf]

/-- One step of the artist/category/tag result loop, on a store where no
comic is named like any comic id, either keeps the accumulator (the
match resolved to nothing or to the dropped id 0) or raises from the
id-keyed load. -/
theorem resolveAndLoad_eq (db : DB) (all : List (Int × String))
    (hall : ∀ p ∈ all, ∃ row ∈ db.comics, p.1 = row.id)
    (hn : ∀ row ∈ db.comics, ∀ row2 ∈ db.comics, row.name ≠ toString row2.id)
    (acc : List ComicData) (v : String) :
    resolveAndLoad db all acc v = .ok acc ∨
      resolveAndLoad db all acc v = .error .typeError := by
  unfold resolveAndLoad
  cases hf : (all.find? (fun comic => comic.2 == v)).map (fun comic => comic.1) with
  | none => simp only [hf]; exact .inl trivial
  | some i =>
    simp only [hf]
    by_cases h0 : i = 0
    · rw [if_pos h0]
      exact .inl rfl
    · right
      rw [if_neg h0]
      obtain ⟨p, hpf, hpi⟩ := Option.map_eq_some'.mp hf
      obtain ⟨row2, hrow2, hid⟩ := hall p (List.mem_of_find?_eq_some hpf)
      have hload : ComicData.load_from_db db (.int i) = .error .typeError := by
        apply load_from_db_int_of_no_numeral
        intro row hrow
        rw [← hpi, hid]
        exact hn row hrow row2 hrow2
      rw [hload]
      rfl

/-- On a store where no comic is named like any comic id, the
artist/category/tag result loop can only return its initial accumulator:
every iteration either drops its match or raises. -/
theorem resolveAndLoad_foldlM_ok (db : DB) (all : List (Int × String))
    (hall : ∀ p ∈ all, ∃ row ∈ db.comics, p.1 = row.id)
    (hn : ∀ row ∈ db.comics, ∀ row2 ∈ db.comics, row.name ≠ toString row2.id) :
    ∀ (l : List String) (acc res : List ComicData),
      l.foldlM (resolveAndLoad db all) acc = .ok res → res = acc := by
  intro l
  induction l with
  | nil => intro acc res h; exact (Except.ok.inj h).symm
  | cons v t ih =>
    intro acc res h
    rw [List.foldlM_cons] at h
    rcases resolveAndLoad_eq db all hall hn acc v with he | he <;> rw [he] at h
    · exact ih _ _ h
    · exact Except.noConfusion h

/-- A successful `save_to_db` requires the comic's id to be fresh and
appends one comics row, the enumerated page rows and the keyword rows. -/
theorem save_to_db_ok (c : ComicData) (db db' : DB) (h : c.save_to_db db = .ok db') :
    (∀ row ∈ db.comics, row.id ≠ c.id) ∧
    db'.comics = db.comics ++ [comicRowOf c] ∧
    db'.pages = db.pages ++ pageRowsOf c ∧
    db'.keywords = db.keywords ++ c.keywords.map (fun k => { comic_id := c.id, keyword := k }) := by
  unfold ComicData.save_to_db at h
  by_cases ha : db.comics.any (fun row => row.id == c.id)
  · rw [if_pos ha] at h
    exact Except.noConfusion h
  · rw [if_neg ha] at h
    have hd := Except.ok.inj h
    subst hd
    refine ⟨?_, rfl, rfl, rfl⟩
    intro row hrow
    simp only [List.any_eq_true, not_exists, not_and] at ha
    intro hEq
    exact absurd (by simpa using ha row hrow) (by simp [hEq])

/-- A synchronization step that returns normally either skipped the comic
(it already had enough pages) or saved the merged comic after a
successful detail fetch. -/
theorem update_step_ok_cases (detail : String → Option DetailedComicData) (db : DB)
    (b : BasicComicData) (db' : DB) (h : update_step detail db b = .ok db') :
    (db' = db ∧ ¬ (pagesFor db b.name).length < b.numberOfPages) ∨
    ((pagesFor db b.name).length < b.numberOfPages ∧
      ∃ d, detail b.name = some d ∧
        (ComicData.from_basic_and_detailed b d).save_to_db db = .ok db') := by
  unfold update_step at h
  by_cases hc : (pagesFor db b.name).length < b.numberOfPages
  · rw [if_pos hc] at h
    right
    refine ⟨hc, ?_⟩
    cases hd : detail b.name with
    | none => simp only [hd] at h; exact Except.noConfusion h
    | some d =>
      simp only [hd] at h
      refine ⟨d, rfl, ?_⟩
      cases hs : (ComicData.from_basic_and_detailed b d).save_to_db db with
      | error e => simp only [hs] at h; exact Except.noConfusion h
      | ok db2 => simp only [hs] at h; exact congrArg Except.ok (Except.ok.inj h)
  · rw [if_neg hc] at h
    exact .inl ⟨(Except.ok.inj h).symm, hc⟩

/-- A failing synchronization step leaves the database unchanged: both
exception paths precede any write. -/
theorem update_step_error_state (detail : String → Option DetailedComicData) (db : DB)
    (b : BasicComicData) (e : PyError) (db2 : DB)
    (h : update_step detail db b = .error (e, db2)) : db2 = db := by
  unfold update_step at h
  by_cases hc : (pagesFor db b.name).length < b.numberOfPages
  · rw [if_pos hc] at h
    cases hd : detail b.name with
    | none => simp only [hd] at h; exact ((Prod.mk.injEq _ _ _ _).mp (Except.error.inj h).symm).2
    | some d =>
      simp only [hd] at h
      cases hs : (ComicData.from_basic_and_detailed b d).save_to_db db with
      | error e2 => simp only [hs] at h; exact ((Prod.mk.injEq _ _ _ _).mp (Except.error.inj h).symm).2
      | ok db3 => simp only [hs] at h; exact Except.noConfusion h
  · rw [if_neg hc] at h
    exact Except.noConfusion h

/-- Page rows of a comic after a successful save: the old rows for that
name followed by the freshly generated rows when the name matches. -/
theorem pagesFor_save (c : ComicData) (db db' : DB) (h : c.save_to_db db = .ok db')
    (nm : String) :
    pagesFor db' nm = pagesFor db nm ++ (if c.name = nm then pageRowsOf c else []) := by
  have hp := (save_to_db_ok c db db' h).2.2.1
  unfold pagesFor
  rw [hp, List.filter_append]
  congr 1
  by_cases hnm : c.name = nm
  · simp [pageRowsOf, List.filter_map, Function.comp_def, hnm]
  · simp [pageRowsOf, List.filter_map, Function.comp_def, hnm]

/-- A normally returning synchronization step never removes page rows and
leaves the comic with at least the number of pages the listing reported. -/
theorem update_step_ok_pages (detail : String → Option DetailedComicData) (db : DB)
    (b : BasicComicData) (db' : DB) (h : update_step detail db b = .ok db') :
    (∀ nm, (pagesFor db nm).length ≤ (pagesFor db' nm).length) ∧
    b.numberOfPages ≤ (pagesFor db' b.name).length := by
  rcases update_step_ok_cases detail db b db' h with ⟨heq, hge⟩ | ⟨_hlt, d, _hd, hs⟩
  · subst heq
    exact ⟨fun nm => le_refl _, not_lt.mp hge⟩
  · constructor
    · intro nm
      rw [pagesFor_save _ _ _ hs nm, List.length_append]
      exact Nat.le_add_right _ _
    · rw [pagesFor_save _ _ _ hs b.name]
      have hname : (ComicData.from_basic_and_detailed b d).name = b.name := rfl
      rw [if_pos hname, List.length_append]
      have hlen : (pageRowsOf (ComicData.from_basic_and_detailed b d)).length =
          b.numberOfPages := by
        simp [pageRowsOf, ComicData.from_basic_and_detailed, get_comic_pages_by_name_and_pages]
      simp [hlen]

/-- Along a normally completing cycle, stored page counts never shrink. -/
theorem update_db_ok_mono (detail : String → Option DetailedComicData) :
    ∀ (l : List BasicComicData) (db db' : DB),
      update_db l detail db = .ok db' →
      ∀ nm, (pagesFor db nm).length ≤ (pagesFor db' nm).length := by
  intro l
  induction l with
  | nil =>
    intro db db' h nm
    have := Except.ok.inj h
    subst this
    exact le_refl _
  | cons b t ih =>
    intro db db' h nm
    unfold update_db at h
    rw [List.foldlM_cons] at h
    cases hs : update_step detail db b with
    | error e => rw [hs] at h; exact Except.noConfusion h
    | ok db1 =>
      rw [hs] at h
      exact le_trans ((update_step_ok_pages detail db b db1 hs).1 nm) (ih db1 db' h nm)

/-- After a normally completing cycle, every listed comic has at least as
many stored page rows as the listing reported. -/
theorem update_db_ok_counts (detail : String → Option DetailedComicData) :
    ∀ (l : List BasicComicData) (db db' : DB),
      update_db l detail db = .ok db' →
      ∀ b ∈ l, b.numberOfPages ≤ (pagesFor db' b.name).length := by
  intro l
  induction l with
  | nil => intro db db' _ b hb; cases hb
  | cons b0 t ih =>
    intro db db' h b hb
    unfold update_db at h
    rw [List.foldlM_cons] at h
    cases hs : update_step detail db b0 with
    | error e => rw [hs] at h; exact Except.noConfusion h
    | ok db1 =>
      rw [hs] at h
      rcases List.mem_cons.mp hb with rfl | hbt
      · exact le_trans (update_step_ok_pages detail db b db1 hs).2
          (update_db_ok_mono detail t db1 db' h b.name)
      · exact ih db1 db' h b hbt

/-- A cycle over a listing all of whose comics already have enough stored
pages performs no steps at all and succeeds without touching the store or
the detail endpoint. -/
theorem update_db_skip_all (detail2 : String → Option DetailedComicData) :
    ∀ (l : List BasicComicData) (db : DB),
      (∀ b ∈ l, b.numberOfPages ≤ (pagesFor db b.name).length) →
      update_db l detail2 db = .ok db := by
  intro l
  induction l with
  | nil => intro db _; rfl
  | cons b t ih =>
    intro db h
    unfold update_db
    rw [List.foldlM_cons]
    have hstep : update_step detail2 db b = .ok db := by
      unfold update_step
      rw [if_neg (not_lt.mpr (h b (List.mem_cons_self b t)))]
    rw [hstep]
    exact ih db (fun b2 hb2 => h b2 (List.mem_cons_of_mem b hb2))

/-- Page rows freshly written by a save are numbered 1, 2, ... in order. -/
theorem pagesNew_map_page_number (c : ComicData) :
    (pageRowsOf c).map (fun p => p.page_number) = List.range' 1 c.pages.length := by
  unfold pageRowsOf
  rw [List.map_map]
  have h1 : ((fun p : PageRow => p.page_number) ∘
      (fun p : Nat × String =>
        ({ comic_name := c.name, page_number := p.1 + 1, page_url := p.2 } : PageRow))) =
      (fun p : Nat × String => p.1 + 1) := rfl
  rw [h1]
  have h2 : c.pages.enum.map (fun p : Nat × String => p.1 + 1) =
      (c.pages.enum.map Prod.fst).map (fun x => x + 1) := by
    rw [List.map_map]; rfl
  rw [h2, List.enum_map_fst, List.range'_eq_map_range]
  apply List.map_congr_left
  intro a _
  omega

/-- The empty store satisfies the strengthened invariant. -/
theorem invC_init (assign : String → Int) : InvC assign create_database := by
  constructor
  · intro nm; rfl
  · intro nm hne; simp [pagesFor, create_database] at hne

/-- One synchronization step preserves the strengthened invariant, on
both its normal and its exceptional exit, provided the listing record is
consistent with the name-to-id assignment. -/
theorem update_step_invC (assign : String → Int) (detail : String → Option DetailedComicData)
    (db : DB) (b : BasicComicData) (hb : b.id = assign b.name) (hInv : InvC assign db) :
    (∀ db', update_step detail db b = .ok db' → InvC assign db') ∧
    (∀ e db2, update_step detail db b = .error (e, db2) → InvC assign db2) := by
  constructor
  · intro db' h
    rcases update_step_ok_cases detail db b db' h with ⟨heq, _⟩ | ⟨_hlt, d, _hd, hs⟩
    · subst heq; exact hInv
    · have hrows := save_to_db_ok _ db db' hs
      have hempty : pagesFor db b.name = [] := by
        by_contra hne
        obtain ⟨row, hrow, _hrname, hrid⟩ := hInv.2 b.name hne
        exact (hrows.1 row hrow) (by rw [hrid, ← hb]; rfl)
      constructor
      · intro nm
        rw [pagesFor_save _ db db' hs nm]
        by_cases hnm : (ComicData.from_basic_and_detailed b d).name = nm
        · rw [if_pos hnm]
          have hdbnm : pagesFor db nm = [] := by rw [← hnm]; exact hempty
          rw [hdbnm, List.nil_append]
          have hlen : (pageRowsOf (ComicData.from_basic_and_detailed b d)).length =
              (ComicData.from_basic_and_detailed b d).pages.length := by
            simp [pageRowsOf]
          rw [hlen]
          exact pagesNew_map_page_number _
        · rw [if_neg hnm, List.append_nil]
          exact hInv.1 nm
      · intro nm hne
        rw [pagesFor_save _ db db' hs nm] at hne
        by_cases hnm : (ComicData.from_basic_and_detailed b d).name = nm
        · refine ⟨comicRowOf (ComicData.from_basic_and_detailed b d), ?_, ?_, ?_⟩
          · rw [hrows.2.1]
            exact List.mem_append_right _ (List.mem_singleton_self _)
          · exact hnm
          · show (ComicData.from_basic_and_detailed b d).id = assign nm
            rw [← hnm]
            exact hb
        · rw [if_neg hnm, List.append_nil] at hne
          obtain ⟨row, hrow, h1, h2⟩ := hInv.2 nm hne
          exact ⟨row, by rw [hrows.2.1]; exact List.mem_append_left _ hrow, h1, h2⟩
  · intro e db2 h
    rw [update_step_error_state detail db b e db2 h]
    exact hInv

/-- A whole synchronization cycle over a listing consistent with the
name-to-id assignment preserves the strengthened invariant, whether it
completes or aborts with an exception. -/
theorem update_db_invC (assign : String → Int) (detail : String → Option DetailedComicData) :
    ∀ (l : List BasicComicData) (db : DB),
      ConsistentListing assign l → InvC assign db →
      (∀ db', update_db l detail db = .ok db' → InvC assign db') ∧
      (∀ e db2, update_db l detail db = .error (e, db2) → InvC assign db2) := by
  intro l
  induction l with
  | nil =>
    intro db _ hInv
    constructor
    · intro db' h
      have := Except.ok.inj h
      subst this
      exact hInv
    · intro e db2 h
      exact Except.noConfusion h
  | cons b t ih =>
    intro db hcons hInv
    have hb : b.id = assign b.name := hcons b (List.mem_cons_self b t)
    have hstep := update_step_invC assign detail db b hb hInv
    have htail : ConsistentListing assign t := fun b2 hb2 => hcons b2 (List.mem_cons_of_mem b hb2)
    constructor
    · intro db' h
      unfold update_db at h
      rw [List.foldlM_cons] at h
      cases hs : update_step detail db b with
      | error e => rw [hs] at h; exact Except.noConfusion h
      | ok db1 =>
        rw [hs] at h
        exact (ih db1 htail (hstep.1 db1 hs)).1 db' h
    · intro e db2 h
      unfold update_db at h
      rw [List.foldlM_cons] at h
      cases hs : update_step detail db b with
      | error p =>
        rw [hs] at h
        have hp := Except.error.inj h
        subst hp
        exact hstep.2 e db2 hs
      | ok db1 =>
        rw [hs] at h
        exact (ih db1 htail (hstep.1 db1 hs)).2 e db2 h

/-- Every store reachable through cycles consistent with one name-to-id
assignment satisfies the strengthened invariant. -/
theorem reachableC_invC (assign : String → Int) (db : DB) (h : ReachableC assign db) :
    InvC assign db := by
  induction h with
  | init => exact invC_init assign
  | cycle_ok _ hcons hup ih => exact (update_db_invC assign _ _ _ hcons ih).1 _ hup
  | cycle_err _ hcons hup ih => exact (update_db_invC assign _ _ _ hcons ih).2 _ _ hup

/-- C1: the claim that re-upserting an already-stored comic replaces its
page set is contradicted by the code.  At the failing input — the store
already holds comic "A" (id 1) with 2 pages and the listing reports the
same comic with 3 pages — the plain INSERT of `save_to_db` violates the
UNIQUE constraint on `comics.id`, the cycle aborts with IntegrityError,
the store is left unchanged, and the stored page count stays 2 instead
of the reported 3. -/
theorem C1_resync_raises_and_keeps_old_pages :
    update_db [mkBasic 1 "A" 3] detailA db1 = .error (.integrityError, db1) ∧
    (pagesFor db1 "A").length = 2 ∧ (2 : Nat) ≠ 3 := by decide

/-- C2: the claim that every search returns fully-hydrated records is
contradicted by the code.  On a store holding comic "A" (id 1) with
keyword "feral", the keyword search finds comic id 1 but passes that id
to the name-keyed `load_from_db`, whose `fetchone` finds nothing and
whose `comic_data[0]` then raises TypeError — even though the same comic
hydrates fine when loaded by its name. -/
theorem C2_keyword_search_raises :
    ComicData.search_by_keywords db1 ["feral"] 10 = .error .typeError ∧
    (ComicData.load_from_db db1 (.text "A")).isOk = true := by decide

/-- C3 (amended): in every store state reachable from the fresh database
by synchronization cycles whose listings pair each comic name with one
fixed id, each comic's page numbers are exactly the contiguous sequence
1 .. (count of its page rows).  (Growth attempts for an existing name
then die on the comics.id UNIQUE constraint before writing, so the page
set is never appended to.) -/
theorem C3_pages_contiguous_of_consistent (assign : String → Int) (db : DB)
    (h : ReachableC assign db) : PagesContiguous db :=
  (reachableC_invC assign db h).1

/-- C3 witness: the invariant instantiated on the concrete store reached
by one consistent cycle that stored comic "A" with two pages. -/
theorem C3_pages_contiguous_witness :
    (pagesFor db1 "A").map (fun p => p.page_number) =
      List.range' 1 (pagesFor db1 "A").length := by
  have h1 : update_db [mkBasic 1 "A" 2] detailA create_database = .ok db1 := by decide
  have hcons : ConsistentListing assignW [mkBasic 1 "A" 2] := by
    intro b hb
    rw [List.mem_singleton.mp hb]
    decide
  exact C3_pages_contiguous_of_consistent assignW db1
    (.cycle_ok .init hcons h1) "A"

/-- C3 counterexample: as stated, the claim is false.  The fresh database
is synchronized against a listing carrying comic "A" under id 1 with 2
pages, then against a listing carrying the same name "A" under a new id
2 with 3 pages; both cycles complete, and the reachable store then holds
page numbers 1, 2, 1, 2, 3 for "A" — appended, with duplicates and out
of order. -/
theorem C3_pages_contiguous_counterexample :
    Reachable db2bad ∧
    update_db [mkBasic 1 "A" 2] detailA create_database = .ok db1 ∧
    update_db [mkBasic 2 "A" 3] detailA2 db1 = .ok db2bad ∧
    (pagesFor db2bad "A").map (fun p => p.page_number) = [1, 2, 1, 2, 3] ∧
    ¬ PagesContiguous db2bad := by
  have h1 : update_db [mkBasic 1 "A" 2] detailA create_database = .ok db1 := by decide
  have h2 : update_db [mkBasic 2 "A" 3] detailA2 db1 = .ok db2bad := by decide
  exact ⟨.cycle_ok (.cycle_ok .init h1) h2, h1, h2, by decide,
    fun h => absurd (h "A") (by decide)⟩

/-- C4: a second synchronization cycle over an unchanged listing returns
the store unchanged (its row counts included), whatever the detail
endpoint then answers — no fetch happens; and in general a cycle performs
no write for a comic whose stored page count already reaches the count
the listing reports (that step returns the store unchanged). -/
theorem C4_sync_idempotent :
    (∀ (comics : List BasicComicData) (detail detail2 : String → Option DetailedComicData)
       (db db2 : DB),
      update_db comics detail db = .ok db2 → update_db comics detail2 db2 = .ok db2) ∧
    (∀ (detail3 : String → Option DetailedComicData) (db3 : DB) (b : BasicComicData),
      b.numberOfPages ≤ (pagesFor db3 b.name).length → update_step detail3 db3 b = .ok db3) := by
  constructor
  · intro comics detail detail2 db db2 h
    exact update_db_skip_all detail2 comics db2 (update_db_ok_counts detail comics db db2 h)
  · intro detail3 db3 b hb
    unfold update_step
    rw [if_neg (not_lt.mpr hb)]

/-- C4 witness: after the cycle that stored comic "A", re-running the
same listing succeeds and changes nothing even against a detail endpoint
that now always fails. -/
theorem C4_sync_idempotent_witness :
    update_db [mkBasic 1 "A" 2] (fun _ => none) db1 = .ok db1 :=
  C4_sync_idempotent.1 [mkBasic 1 "A" 2] detailA (fun _ => none) create_database db1 (by decide)

/-- C5: the claim that looking up an absent name returns an explicit
absent result is contradicted by the code.  On a store holding only
comic "A", loading "B" raises TypeError (`fetchone` returns `None` and
`comic_data[0]` subscripts it) — the repository's own bot handlers check
`if comic is None`, an absent-result they never receive — while loading
the present name "A" succeeds. -/
theorem C5_absent_lookup_raises :
    ComicData.load_from_db db1 (.text "B") = .error .typeError ∧
    (ComicData.load_from_db db1 (.text "A")).isOk = true := by decide

/-- C6: the claim that a failed per-comic detail fetch only skips that
comic is contradicted by the code.  Syncing the fresh store against the
listing ["A" (2 pages), "B" (2 pages)] with a detail endpoint that fails
for "A" and knows "B" aborts the whole cycle with AttributeError at "A"
(the unchecked `None` flows into `from_basic_and_detailed`), leaving the
store empty — comic "B" is never processed, although a cycle over "B"
alone succeeds. -/
theorem C6_detail_failure_aborts_cycle :
    update_db [mkBasic 1 "A" 2, mkBasic 2 "B" 2] detailBonly create_database
      = .error (.attributeError, create_database) ∧
    (update_db [mkBasic 2 "B" 2] detailBonly create_database).isOk = true := by decide

/-- Python `round` of `m / 10` on a non-negative integer `m`, expressed
with natural division: the floor, plus one exactly when the last digit
exceeds 5, or equals 5 with an odd quotient (round-half-to-even). -/
theorem pyRoundDiv10_natCast (m : Nat) :
    pyRoundDiv10 (m : Int) =
      ((m / 10 + if m % 10 < 5 ∨ (m % 10 = 5 ∧ (m / 10) % 2 = 0) then 0 else 1 : Nat) : Int) := by
  unfold pyRoundDiv10
  rw [show (10 : Int) = ((10 : Nat) : Int) from rfl, ← Int.ofNat_fdiv, ← Int.ofNat_fmod]
  split_ifs <;> push_cast <;> omega

/-- C7 (amended): the maximum page number for `totalComics` stored comics
is `round((totalComics - 1) / 10)` under Python rounding — that is,
`floor((totalComics - 1) / 10)` exactly when the remainder is below 5 or
equals 5 with an even quotient, and one more otherwise; for 25 comics it
equals 2, as the claim's example says. -/
theorem C7_max_page_rounds :
    (∀ db : DB, 1 ≤ db.comics.length →
      ComicData.get_max_page_number db =
        (((db.comics.length - 1) / 10 +
          if (db.comics.length - 1) % 10 < 5 ∨
             ((db.comics.length - 1) % 10 = 5 ∧ ((db.comics.length - 1) / 10) % 2 = 0)
          then 0 else 1 : Nat) : Int)) ∧
    ComicData.get_max_page_number (dbN 25) = 2 := by
  constructor
  · intro db h
    unfold ComicData.get_max_page_number
    have hc : ((db.comics.length : Int) - 1) = ((db.comics.length - 1 : Nat) : Int) := by
      omega
    rw [hc, pyRoundDiv10_natCast]
  · decide

/-- C7 witness: the rounding formula instantiated on a 27-comic store. -/
theorem C7_max_page_rounds_witness :
    ComicData.get_max_page_number (dbN 27) =
      ((((dbN 27).comics.length - 1) / 10 +
        if ((dbN 27).comics.length - 1) % 10 < 5 ∨
           (((dbN 27).comics.length - 1) % 10 = 5 ∧ (((dbN 27).comics.length - 1) / 10) % 2 = 0)
        then 0 else 1 : Nat) : Int) :=
  C7_max_page_rounds.1 (dbN 27) (by decide)

/-- C7 counterexample: as stated, the claim is false.  For 27 stored
comics the code reports maximum page 3 (Python `round(2.6)`), while
`floor((27 - 1) / 10)` is 2. -/
theorem C7_max_page_floor_counterexample :
    ComicData.get_max_page_number (dbN 27) = 3 ∧
    ((dbN 27).comics.length - 1) / 10 = 2 ∧ (3 : Int) ≠ 2 := by decide

/-- C10 (amended): in the artist, category and tag searches, each matched
field value resolves to the id of the first comics row carrying it, and a
resolved id 0 is silently dropped.  Every remaining id is then looked up
as a comic NAME — sqlite's TEXT affinity turns the bound id into its
decimal text — so the search raises TypeError unless some comics row is
named exactly that numeral, in which case the first row with that
numeral name is returned in place of the matched comic.  Hence, on any
store where no comic is named like any comic's id, a normal return is
always the empty list.  Concretely: with rows (id 0, artist "X") and
(id 7, artist "X") the search returns `[]` (the value resolves to the
first row, id 0, which is dropped; id 7 is never considered); with rows
(id 1, "N1", "X") and (id 2, "N2", "X") it raises TypeError; and with
rows (id 5, name "B", artist "X") and (id 7, name "5", artist "Y"),
matching "X" resolves to id 5 and returns the comic NAMED "5" — the
row with artist "Y", not the matched comic. -/
theorem C10_field_search_resolution :
    (∀ (db : DB) (q : String) (limit : Nat) (res : List ComicData),
        (∀ row ∈ db.comics, ∀ row2 ∈ db.comics, row.name ≠ toString row2.id) →
        ComicData.search_comics_by_artist db q limit = .ok res → res = []) ∧
    (∀ (db : DB) (q : String) (limit : Nat) (res : List ComicData),
        (∀ row ∈ db.comics, ∀ row2 ∈ db.comics, row.name ≠ toString row2.id) →
        ComicData.search_comics_by_category db q limit = .ok res → res = []) ∧
    (∀ (db : DB) (q : String) (limit : Nat) (res : List ComicData),
        (∀ row ∈ db.comics, ∀ row2 ∈ db.comics, row.name ≠ toString row2.id) →
        ComicData.search_comics_by_tag db q limit = .ok res → res = []) ∧
    ComicData.search_comics_by_artist dbArt0 "X" 10 = .ok [] ∧
    ComicData.search_comics_by_artist dbArt2 "X" 10 = .error .typeError ∧
    (ComicData.search_comics_by_artist dbNum "X" 10).map
      (fun l => l.map (fun c => (c.name, c.artist))) = .ok [("5", "Y")] := by
  refine ⟨?_, ?_, ?_, by decide, by decide, by decide⟩ <;>
    · intro db q limit res hn h
      refine resolveAndLoad_foldlM_ok db _ ?_ hn _ [] res h
      intro p hp
      obtain ⟨row, hrow, hpe⟩ := List.mem_map.mp hp
      exact ⟨row, hrow, by rw [← hpe]⟩

/-- C10 witness: the only-empty-successes clause instantiated on the
store whose artist matches all resolve to the dropped id 0 (and none of
whose names is a comic-id numeral). -/
theorem C10_field_search_resolution_witness :
    ComicData.search_comics_by_artist dbArt0 "X" 10 = .ok [] ∧
    ([] : List ComicData) = [] :=
  ⟨by decide, C10_field_search_resolution.1 dbArt0 "X" 10 [] (by decide) (by decide)⟩

/-- C10 counterexample: as stated, the claim is false.  With two comics
(ids 1 and 2, named "N1" and "N2") sharing artist "X", the search does
not return the first and omit the second — it raises TypeError: the
resolved id 1 is bound where `load_from_db` expects a name, and no comic
is named "1". -/
theorem C10_field_search_counterexample :
    ComicData.search_comics_by_artist dbArt2 "X" 10 = .error .typeError := by decide

/-- The rating ordering used by `ORDER BY userRating DESC` is transitive. -/
theorem optRatingDescLE_trans : ∀ a b c : Option Rat,
    optRatingDescLE a b → optRatingDescLE b c → optRatingDescLE a c := by
  intro a b c
  cases a <;> cases b <;> cases c <;> simp [optRatingDescLE]
  exact fun h1 h2 => le_trans h2 h1

/-- The rating ordering used by `ORDER BY userRating DESC` is total. -/
theorem optRatingDescLE_total : ∀ a b : Option Rat,
    optRatingDescLE a b || optRatingDescLE b a := by
  intro a b
  cases a <;> cases b <;> simp [optRatingDescLE]
  exact le_total _ _

/-- The rating-ordered comics table is pairwise ordered by descending
rating. -/
theorem sorted_by_rating_pairwise (db : DB) :
    (sorted_by_rating db).Pairwise (fun a b => ratingDescLE a b = true) :=
  List.sorted_mergeSort
    (fun a b c h1 h2 => optRatingDescLE_trans a.userRating b.userRating c.userRating h1 h2)
    (fun a b => optRatingDescLE_total a.userRating b.userRating)
    db.comics

/-- When stored names are unique, the name lookup of `load_from_db`
finds exactly the row asked for. -/
theorem find?_name_eq (l : List ComicRow) (hnd : (l.map (fun r => r.name)).Nodup)
    (r : ComicRow) (hr : r ∈ l) :
    l.find? (fun row => (SqlValue.text r.name).eqText row.name) = some r := by
  induction l with
  | nil => cases hr
  | cons a t ih =>
    rcases List.mem_cons.mp hr with rfl | hrt
    · have hp : (SqlValue.text r.name).eqText r.name = true := by simp [SqlValue.eqText]
      simp [List.find?_cons, hp]
    · have hnd' : (∀ x ∈ t, ¬ x.name = a.name) ∧ (t.map (fun row => row.name)).Nodup := by
        simpa using hnd
      have hanot : a.name ≠ r.name := fun hEq => hnd'.1 r hrt (hEq.symm)
      have hp : (SqlValue.text r.name).eqText a.name = false := by
        simp [SqlValue.eqText]
        exact fun h => hanot h.symm
      simp only [List.find?_cons, hp]
      exact ih hnd'.2 hrt

/-- A by-name load that succeeds returns a record carrying exactly the
requested name. -/
theorem load_text_name (db : DB) (nm : String) (c : ComicData)
    (h : ComicData.load_from_db db (.text nm) = .ok c) : c.name = nm := by
  unfold ComicData.load_from_db at h
  cases hf : db.comics.find? (fun row => (SqlValue.text nm).eqText row.name) with
  | none => simp only [hf] at h; exact Except.noConfusion h
  | some row =>
    simp only [hf] at h
    have hrow := List.find?_some hf
    have hnmr : nm = row.name := by simpa [SqlValue.eqText] using hrow
    have hc := Except.ok.inj h
    rw [← hc, ← hnmr]

/-- Loading the row found by a unique-name lookup succeeds and carries
the row's name and rating. -/
theorem load_text_of_row (db : DB) (hnd : (db.comics.map (fun r => r.name)).Nodup)
    (r : ComicRow) (hr : r ∈ db.comics) :
    ∃ c, ComicData.load_from_db db (.text r.name) = .ok c ∧
      c.name = r.name ∧ c.userRating = r.userRating := by
  have hf := find?_name_eq db.comics hnd r hr
  cases hl : ComicData.load_from_db db (.text r.name) with
  | error e =>
    unfold ComicData.load_from_db at hl
    rw [hf] at hl
    exact Except.noConfusion hl
  | ok c =>
    refine ⟨c, rfl, load_text_name db r.name c hl, ?_⟩
    unfold ComicData.load_from_db at hl
    rw [hf] at hl
    rw [← Except.ok.inj hl]

/-- Hydrating a list of unique-named rows by name succeeds and preserves
names, ratings and length. -/
theorem mapM_load_rows (db : DB) (hnd : (db.comics.map (fun r => r.name)).Nodup) :
    ∀ (rows : List ComicRow), (∀ r ∈ rows, r ∈ db.comics) →
      ∃ res, (rows.map (fun r => r.name)).mapM
          (fun nm => ComicData.load_from_db db (.text nm)) = .ok res ∧
        res.map (fun c => c.userRating) = rows.map (fun r => r.userRating) ∧
        res.map (fun c => c.name) = rows.map (fun r => r.name) ∧
        res.length = rows.length := by
  intro rows
  induction rows with
  | nil => intro _; exact ⟨[], rfl, rfl, rfl, rfl⟩
  | cons r t ih =>
    intro hmem
    obtain ⟨c, hc, hcn, hcr⟩ := load_text_of_row db hnd r (hmem r (List.mem_cons_self r t))
    obtain ⟨res', h1, h2, h3, h4⟩ := ih (fun r2 hr2 => hmem r2 (List.mem_cons_of_mem r hr2))
    refine ⟨c :: res', ?_, ?_, ?_, ?_⟩
    · rw [List.map_cons, List.mapM_cons, hc, h1]
      rfl
    · simp [hcr, h2]
    · simp [hcn, h3]
    · simp [h4]

/-- C8: page-based browsing on a store with unique comic names returns
exactly the slice of the rating-ordered table at offset
`(page - 1) * limit`, fully hydrated: the result has
`min limit (total - offset)` comics, carries the names of that slice in
order, and its ratings are in descending order (NULLs last); on the
25-comic store, page 1 at limit 10 returns the ten top-rated comics and
page 3 the remaining five. -/
theorem C8_page_browse :
    (∀ (db : DB) (page limit : Nat) (res : List ComicData),
      (db.comics.map (fun r => r.name)).Nodup → 1 ≤ page →
      ComicData.search_comics_by_page db page limit = .ok res →
      res.length = min limit (db.comics.length - (page - 1) * limit) ∧
      res.map (fun c => c.name) =
        (((sorted_by_rating db).drop ((page - 1) * limit)).take limit).map (fun r => r.name) ∧
      (res.map (fun c => c.userRating)).Pairwise (fun x y => optRatingDescLE x y = true)) ∧
    (ComicData.search_comics_by_page (dbN 25) 1 10).map (fun l => l.map (fun c => c.name)) =
      .ok ["C25", "C24", "C23", "C22", "C21", "C20", "C19", "C18", "C17", "C16"] ∧
    (ComicData.search_comics_by_page (dbN 25) 3 10).map (fun l => l.map (fun c => c.name)) =
      .ok ["C5", "C4", "C3", "C2", "C1"] := by
  refine ⟨?_, by decide, by decide⟩
  intro db page limit res hnd _hpage h
  have hrowsmem : ∀ r ∈ ((sorted_by_rating db).drop ((page - 1) * limit)).take limit,
      r ∈ db.comics := by
    intro r hr
    have h1 := List.mem_of_mem_drop (List.mem_of_mem_take hr)
    rw [sorted_by_rating] at h1
    exact List.mem_mergeSort.mp h1
  obtain ⟨res', h1, h2, h3, h4⟩ := mapM_load_rows db hnd _ hrowsmem
  have hres : res' = res := by
    have hh : (((((sorted_by_rating db).drop ((page - 1) * limit)).take limit).map
        (fun r => r.name)).mapM (fun nm => ComicData.load_from_db db (.text nm))) = .ok res := h
    rw [h1] at hh
    exact Except.ok.inj hh
  subst hres
  refine ⟨?_, ?_, ?_⟩
  · rw [h4]
    simp [sorted_by_rating, Nat.min_comm]
  · exact h3
  · rw [h2]
    have hslice : (((sorted_by_rating db).drop ((page - 1) * limit)).take limit).Pairwise
        (fun a b => ratingDescLE a b = true) :=
      (sorted_by_rating_pairwise db).sublist
        ((List.take_sublist _ _).trans (List.drop_sublist _ _))
    exact (List.pairwise_map).mpr hslice

/-- C8 witness: the slice property instantiated on the 25-comic store at
page 3, limit 10, whose result has min 10 (25 - 20) = 5 comics. -/
theorem C8_page_browse_witness :
    ComicData.search_comics_by_page (dbN 25) 3 10 = .ok res25p3 ∧
    res25p3.length = min 10 ((dbN 25).comics.length - (3 - 1) * 10) := by
  have hs : ComicData.search_comics_by_page (dbN 25) 3 10 = .ok res25p3 := by decide
  exact ⟨hs, (C8_page_browse.1 (dbN 25) 3 10 res25p3 (by decide) (by decide) hs).1⟩

/-- Hydrating a list of names by name preserves the names in order. -/
theorem mapM_load_names (db : DB) :
    ∀ (names : List String) (res : List ComicData),
      names.mapM (fun nm => ComicData.load_from_db db (.text nm)) = .ok res →
      res.map (fun c => c.name) = names := by
  intro names
  induction names with
  | nil =>
    intro res h
    have : [] = res := Except.ok.inj h
    subst this
    rfl
  | cons nm t ih =>
    intro res h
    rw [List.mapM_cons] at h
    cases hl : ComicData.load_from_db db (.text nm) with
    | error e => rw [hl] at h; exact Except.noConfusion h
    | ok c =>
      rw [hl] at h
      cases ht : t.mapM (fun nm => ComicData.load_from_db db (.text nm)) with
      | error e => rw [ht] at h; exact Except.noConfusion h
      | ok cs =>
        rw [ht] at h
        have : c :: cs = res := Except.ok.inj h
        subst this
        simp [load_text_name db nm c hl, ih cs ht]

/-- The descending tuple order of the name-search `nlargest` is
transitive. -/
theorem pairDescLE_trans : ∀ p q r : Rat × String,
    Difflib.pairDescLE p q → Difflib.pairDescLE q r → Difflib.pairDescLE p r := by
  intro p q r h1 h2
  unfold Difflib.pairDescLE at h1 h2 ⊢
  by_cases e1 : p.1 = q.1
  · by_cases e2 : q.1 = r.1
    · rw [if_pos e1] at h1
      rw [if_pos e2] at h2
      rw [if_pos (e1.trans e2)]
      have h1' : ¬ (p.2.data < q.2.data) := by simpa using h1
      have h2' : ¬ (q.2.data < r.2.data) := by simpa using h2
      simpa using not_lt.mpr (le_trans (not_lt.mp h2') (not_lt.mp h1'))
    · rw [if_pos e1] at h1
      rw [if_neg e2] at h2
      have h2' : r.1 < q.1 := by simpa using h2
      have hne : ¬ p.1 = r.1 := by rw [e1]; exact ne_of_gt h2'
      rw [if_neg hne]
      have : r.1 < p.1 := by rw [e1]; exact h2'
      simpa using this
  · by_cases e2 : q.1 = r.1
    · rw [if_neg e1] at h1
      have h1' : q.1 < p.1 := by simpa using h1
      have hne : ¬ p.1 = r.1 := by rw [← e2]; exact ne_of_gt h1'
      rw [if_neg hne]
      have : r.1 < p.1 := by rw [← e2]; exact h1'
      simpa using this
    · rw [if_neg e1] at h1
      rw [if_neg e2] at h2
      have h1' : q.1 < p.1 := by simpa using h1
      have h2' : r.1 < q.1 := by simpa using h2
      have h3 : r.1 < p.1 := lt_trans h2' h1'
      rw [if_neg (ne_of_gt h3)]
      simpa using h3

/-- The descending tuple order of the name-search `nlargest` is total. -/
theorem pairDescLE_total : ∀ p q : Rat × String,
    Difflib.pairDescLE p q || Difflib.pairDescLE q p := by
  intro p q
  unfold Difflib.pairDescLE
  by_cases e : p.1 = q.1
  · rw [if_pos e, if_pos e.symm]
    by_cases hl : p.2.data < q.2.data
    · simp [hl, lt_asymm hl]
    · simp [hl]
  · rw [if_neg e, if_neg (Ne.symm e)]
    rcases lt_or_gt_of_ne e with hlt | hgt
    · simp [hlt]
    · simp [hgt]

/-- The filter-sort-take structure of `get_close_matches`, with its local
bindings unfolded. -/
theorem gcm_eq (word : String) (poss : List String) (n : Nat) (cutoff : Rat) :
    Difflib.get_close_matches word poss n cutoff =
      ((((poss.filter (fun x =>
          cutoff ≤ Difflib.real_quick_similarity x.data word.data ∧
          cutoff ≤ Difflib.quick_similarity x.data word.data ∧
          cutoff ≤ Difflib.similarity x.data word.data)).map
        (fun x => (Difflib.similarity x.data word.data, x))).mergeSort
          Difflib.pairDescLE).take n).map (fun p => p.2) := rfl

/-- Every close match is one of the possibilities and meets the cutoff. -/
theorem gcm_mem (word : String) (poss : List String) (n : Nat) (cutoff : Rat) (x : String)
    (hx : x ∈ Difflib.get_close_matches word poss n cutoff) :
    x ∈ poss ∧ cutoff ≤ Difflib.similarity x.data word.data := by
  rw [gcm_eq] at hx
  obtain ⟨p, hp, hpx⟩ := List.mem_map.mp hx
  obtain ⟨y, hy, hyp⟩ := List.mem_map.mp (List.mem_mergeSort.mp (List.mem_of_mem_take hp))
  have hfy := List.mem_filter.mp hy
  have hyx : y = x := by rw [← hpx, ← hyp]
  subst hyx
  exact ⟨hfy.1, (of_decide_eq_true hfy.2).2.2⟩

/-- There are never more close matches than requested. -/
theorem gcm_length (word : String) (poss : List String) (n : Nat) (cutoff : Rat) :
    (Difflib.get_close_matches word poss n cutoff).length ≤ n := by
  rw [gcm_eq, List.length_map]
  exact List.length_take_le _ _

/-- Close matches come out in order of weakly decreasing similarity. -/
theorem gcm_sorted (word : String) (poss : List String) (n : Nat) (cutoff : Rat) :
    (Difflib.get_close_matches word poss n cutoff).Pairwise
      (fun a b => Difflib.similarity b.data word.data ≤ Difflib.similarity a.data word.data) := by
  rw [gcm_eq]
  have hs := List.sorted_mergeSort pairDescLE_trans pairDescLE_total
    ((poss.filter (fun x =>
        cutoff ≤ Difflib.real_quick_similarity x.data word.data ∧
        cutoff ≤ Difflib.quick_similarity x.data word.data ∧
        cutoff ≤ Difflib.similarity x.data word.data)).map
      (fun x => (Difflib.similarity x.data word.data, x)))
  have htake := hs.sublist (List.take_sublist n _)
  have hfst : ∀ p ∈ (((poss.filter (fun x =>
        cutoff ≤ Difflib.real_quick_similarity x.data word.data ∧
        cutoff ≤ Difflib.quick_similarity x.data word.data ∧
        cutoff ≤ Difflib.similarity x.data word.data)).map
      (fun x => (Difflib.similarity x.data word.data, x))).mergeSort
        Difflib.pairDescLE).take n, p.1 = Difflib.similarity p.2.data word.data := by
    intro p hp
    obtain ⟨y, _, hyp⟩ := List.mem_map.mp (List.mem_mergeSort.mp (List.mem_of_mem_take hp))
    rw [← hyp]
  have himp : List.Pairwise (fun p q : Rat × String =>
      Difflib.similarity q.2.data word.data ≤ Difflib.similarity p.2.data word.data)
      ((((poss.filter (fun x =>
          cutoff ≤ Difflib.real_quick_similarity x.data word.data ∧
          cutoff ≤ Difflib.quick_similarity x.data word.data ∧
          cutoff ≤ Difflib.similarity x.data word.data)).map
        (fun x => (Difflib.similarity x.data word.data, x))).mergeSort
          Difflib.pairDescLE).take n) := by
    refine List.Pairwise.imp_of_mem ?_ htake
    intro a b ha hb hab
    rw [← hfst a ha, ← hfst b hb]
    unfold Difflib.pairDescLE at hab
    by_cases e : a.1 = b.1
    · exact le_of_eq e.symm
    · rw [if_neg e] at hab
      exact le_of_lt (by simpa using hab)
  exact (List.pairwise_map).mpr himp

/-- C9 (amended): the name search title-cases the query and computes
difflib similarity against every stored name; every comic it returns is
a stored one whose name has similarity at least (not strictly above) the
0.3 cutoff against the title-cased query, there are at most `limit` of
them, and they come in order of weakly decreasing similarity; a query
with near-zero overlap ("Zzzzqx" against "Fox Tales", similarity 2/15)
returns the empty sequence. -/
theorem C9_name_search :
    (∀ (db : DB) (query : String) (limit : Nat) (res : List ComicData),
      ComicData.search_comics_by_name db query limit = .ok res →
      res.length ≤ limit ∧
      (∀ c ∈ res, c.name ∈ db.comics.map (fun r => r.name) ∧
        (3 : Rat) / 10 ≤ Difflib.similarity c.name.data (pyTitle query).data) ∧
      (res.map (fun c => Difflib.similarity c.name.data (pyTitle query).data)).Pairwise
        (fun x y => y ≤ x)) ∧
    ComicData.search_comics_by_name dbFox "Zzzzqx" 10 = .ok [] := by
  refine ⟨?_, by decide⟩
  intro db query limit res h
  have hdef : ComicData.search_comics_by_name db query limit =
      (if (Difflib.get_close_matches (pyTitle query) (db.comics.map (fun row => row.name))
          limit (3 / 10)).isEmpty then .ok []
       else (Difflib.get_close_matches (pyTitle query) (db.comics.map (fun row => row.name))
          limit (3 / 10)).mapM
            (fun comic_name => ComicData.load_from_db db (.text comic_name))) := rfl
  rw [hdef] at h
  by_cases he : (Difflib.get_close_matches (pyTitle query)
      (db.comics.map (fun row => row.name)) limit (3 / 10)).isEmpty
  · rw [if_pos he] at h
    have : [] = res := Except.ok.inj h
    subst this
    exact ⟨by simp, by simp, by simp⟩
  · rw [if_neg he] at h
    have hnames := mapM_load_names db _ res h
    refine ⟨?_, ?_, ?_⟩
    · calc res.length = (res.map (fun c => c.name)).length := (List.length_map _ _).symm
        _ ≤ limit := by rw [hnames]; exact gcm_length _ _ _ _
    · intro c hc
      have hcn : c.name ∈ Difflib.get_close_matches (pyTitle query)
          (db.comics.map (fun row => row.name)) limit (3 / 10) := by
        rw [← hnames]
        exact List.mem_map_of_mem _ hc
      exact gcm_mem _ _ _ _ _ hcn
    · have hmap : res.map (fun c => Difflib.similarity c.name.data (pyTitle query).data) =
          (res.map (fun c => c.name)).map
            (fun nm => Difflib.similarity nm.data (pyTitle query).data) := by
        rw [List.map_map]; rfl
      rw [hmap, hnames]
      exact (List.pairwise_map).mpr (gcm_sorted _ _ _ _)

/-- C9 witness: the bound and cutoff facts instantiated on the store
whose single name matches the query "abc" at similarity exactly 3/10. -/
theorem C9_name_search_witness :
    ComicData.search_comics_by_name dbAbc "abc" 10 = .ok resAbc ∧
    resAbc.length ≤ 10 := by
  have hs : ComicData.search_comics_by_name dbAbc "abc" 10 = .ok resAbc := by decide
  exact ⟨hs, (C9_name_search.1 dbAbc "abc" 10 resAbc hs).1⟩

/-- C9 counterexample: as stated ("similarity exceeds the 0.3 cutoff"),
the claim is false.  The comic "Abcxxxxxxxxxxxxxx" is returned for the
query "abc" although its similarity to the title-cased query "Abc" is
exactly 3/10, not above it: difflib's test is `ratio >= cutoff`. -/
theorem C9_name_search_counterexample :
    (ComicData.search_comics_by_name dbAbc "abc" 10).map (fun l => l.map (fun c => c.name)) =
      .ok ["Abcxxxxxxxxxxxxxx"] ∧
    Difflib.similarity "Abcxxxxxxxxxxxxxx".data (pyTitle "abc").data = 3 / 10 ∧
    ¬ ((3 : Rat) / 10 < 3 / 10) := by decide
